import Mathlib

/-!
Verification of the mender-sdk-python retry, HTTP error-classification,
pagination and Location-header logic.

The Python source is shallowly embedded: Python floats are modelled as
rationals (`ℚ`), Python exceptions as an inductive error type returned
through `Except`, and the `random.random()` jitter draw as an explicit
parameter `r` with `0 ≤ r < 1`.
-/

namespace MenderSDK

/-- Model of Python `int(s)` restricted to the inputs this code base can see:
leading/trailing whitespace is stripped, an optional sign is accepted, and the
rest must be one or more decimal digits (escaping via underscores is not
modelled).  Returns `none` where Python `int` raises `ValueError`. -/
def digitsVal (cs : List Char) : Option Nat :=
  if cs ≠ [] ∧ cs.all Char.isDigit then
    some (cs.foldl (fun a c => a * 10 + (c.toNat - 48)) 0)
  else none

/-- Leading and trailing whitespace removal, as Python `int` applies before
parsing. -/
def pyStrip (cs : List Char) : List Char :=
  ((cs.dropWhile Char.isWhitespace).reverse.dropWhile Char.isWhitespace).reverse

/-- Python `int(s)` on a string, as `Option Int` (`none` = `ValueError`). -/
def pythonInt (s : String) : Option Int :=
  match pyStrip s.toList with
  | '+' :: cs => (digitsVal cs).map Int.ofNat
  | '-' :: cs => (digitsVal cs).map (fun n => -(n : Int))
  | cs => (digitsVal cs).map Int.ofNat

/-- The Mender exception classes that can escape an attempt
(`mender_sdk/exceptions.py`).  `MenderValidationError`,
`MenderAuthenticationError`, `MenderAuthorizationError`, `MenderNotFoundError`
and `MenderConflictError` carry their fixed status; `MenderServerError` and
plain `MenderAPIError` carry an arbitrary status; `MenderRateLimitError`
carries the optional `retry_after` value. -/
inductive MErr where
  | validation
  | authentication
  | authorization
  | notFound
  | conflict
  | rateLimit (retry_after : Option Int)
  | server (status : Nat)
  | api (status : Nat)
  | connection
  | timeout
  deriving DecidableEq, Repr

/-- Embedding of `isinstance(e, config.retryable_exceptions)` for the default tuple
`(MenderConnectionError, MenderTimeoutError, MenderServerError,
MenderRateLimitError)` (`retry.py` lines 35-42); none of the four classes has
subclasses, so the isinstance check is exact. -/
def isRetryable : MErr → Bool
  | .connection => true
  | .timeout => true
  | .server _ => true
  | .rateLimit _ => true
  | _ => false

/-- Embedding of `RetryConfig` (`retry.py` lines 26-42); `retryable_exceptions` keeps its
default value and is modelled by `isRetryable`. -/
structure RetryConfig where
  max_retries : Nat
  base_delay : ℚ
  max_delay : ℚ
  exponential_base : ℚ
  jitter : Bool
  deriving DecidableEq, Repr

/-- The default `RetryConfig()` values. -/
def defaultRetryConfig : RetryConfig := ⟨3, 1, 60, 2, true⟩

/-- Embedding of `RetryConfig.calculate_delay` (`retry.py` lines 44-57); `r` is the value
returned by `random.random()`, so a real run has `0 ≤ r < 1`. -/
def calculate_delay (cfg : RetryConfig) (attempt : Nat)
    (retry_after : Option Int) (r : ℚ) : ℚ :=
  match retry_after with
  | some k => (k : ℚ)
  | none =>
    let delay := min (cfg.base_delay * cfg.exponential_base ^ attempt) cfg.max_delay
    if cfg.jitter then delay * (1/2 + r) else delay

/-- Lines 94-96 of `retry.py`: the `retry_after` hint is taken from a
`MenderRateLimitError` and is `None` for every other exception. -/
def retry_after_of : MErr → Option Int
  | .rateLimit ra => ra
  | _ => none

/-- The delay slept before retrying after failure `e` at attempt `attempt`
(`retry.py` lines 94-98). -/
def delay_for (cfg : RetryConfig) (attempt : Nat) (e : MErr) (r : ℚ) : ℚ :=
  calculate_delay cfg attempt (retry_after_of e) r

/-- The `for attempt in range(max_retries + 1)` loop of `retry_with_backoff`
(`retry.py` lines 77-114), unrolled on the remaining budget `fuel`; the
attempt number is `m - fuel`, so the loop starts at `fuel = m` and the last
iteration (`fuel = 0`) re-raises a retryable error bare (`raise`, line 92).
`f n` is the outcome of the `n`-th call of the wrapped function.  The second
component counts how many times `f` was called. -/
def retryAux (m : Nat) (f : Nat → Except MErr α) : Nat → Except MErr α × Nat
  | 0 =>
    -- last iteration, attempt = m: a retryable error hits `attempt >= max_retries`
    -- and is re-raised bare (line 92); a non-retryable one is not caught at all.
    -- Either way the error propagates unchanged.
    (match f m with
     | .ok v => .ok v
     | .error e => .error e, 1)
  | fuel + 1 =>
    match f (m - (fuel + 1)) with
    | .ok v => (.ok v, 1)
    | .error e =>
      if isRetryable e then
        let rest := retryAux m f fuel
        (rest.1, rest.2 + 1)
      else (.error e, 1)

/-- Embedding of `retry_with_backoff(config)(func)` applied to one call: runs the attempt
loop with the full budget.  Returns the outcome and the number of tries. -/
def retry_with_backoff (cfg : RetryConfig) (f : Nat → Except MErr α) :
    Except MErr α × Nat :=
  retryAux cfg.max_retries f cfg.max_retries

/-- Result of a Python call that may raise `ValueError` (from the bare
`int(...)` conversion) rather than a Mender error. -/
inductive PyResult (α : Type) where
  | ok (v : α)
  | valueError
  deriving DecidableEq, Repr

/-- Embedding of `HTTPClient._handle_error_response` (`http.py` lines 101-163), restricted
to the data the classification depends on: the status code and the
`Retry-After` header (`none` when the header is absent).  The raised error is
returned as a value; `PyResult.valueError` marks the case where
`int(retry_after)` itself raises. -/
def handle_error_response (status_code : Nat) (retryAfterHeader : Option String) :
    PyResult MErr :=
  if status_code = 400 then .ok .validation
  else if status_code = 401 then .ok .authentication
  else if status_code = 403 then .ok .authorization
  else if status_code = 404 then .ok .notFound
  else if status_code = 409 then .ok .conflict
  else if status_code = 429 then
    -- `int(retry_after) if retry_after else None`: Python truthiness treats
    -- an absent header and an empty string alike.
    match retryAfterHeader with
    | none => .ok (.rateLimit none)
    | some s =>
      if s = "" then .ok (.rateLimit none)
      else
        match pythonInt s with
        | some k => .ok (.rateLimit (some k))
        | none => .valueError
  else if 500 ≤ status_code ∧ status_code < 600 then .ok (.server status_code)
  else .ok (.api status_code)

/-- A Python response body as seen by `_extract_error_message`: a dict (with
string values, which is all this code base produces), a string, or `None`. -/
inductive PyBody where
  | dict (entries : List (String × String))
  | str (s : String)
  | pyNone
  deriving DecidableEq, Repr

/-- Python `d.get(k)`: `none` when the key is absent. -/
def dictGet (d : List (String × String)) (k : String) : Option String :=
  (d.find? (fun p => p.1 = k)).map (fun p => p.2)

/-- Python `x or y` where `x` is `d.get(k)` (so `None` or a string) and `y`
is a string: yields `y` when `x` is `None` or the empty string (falsy). -/
def pyOrStr (x : Option String) (y : String) : String :=
  match x with
  | none => y
  | some s => if s = "" then y else s

/-- The single-quote character, as Python `repr` uses around dict keys and
values. -/
def pySQuote : String := String.singleton (Char.ofNat 39)

/-- Python `str(d)` for a string-valued dict (faithful for keys and values
containing no quote or escape characters, which is all the claims need). -/
def strOfDict (d : List (String × String)) : String :=
  "\x7b"
    ++ String.intercalate ", "
        (d.map (fun p => pySQuote ++ p.1 ++ pySQuote ++ ": " ++ pySQuote ++ p.2 ++ pySQuote))
    ++ "\x7d"

/-- Embedding of `HTTPClient._extract_error_message` (`http.py` lines 165-177). -/
def extract_error_message : PyBody → String
  | .dict d =>
    pyOrStr (dictGet d "error")
      (pyOrStr (dictGet d "message")
        (pyOrStr (dictGet d "Error") (strOfDict d)))
  | .str s => if s = "" then "Unknown error" else s
  | .pyNone => "Unknown error"

/-- Embedding of `PaginatedResponse` (`models/common.py` lines 33-48). -/
structure PaginatedResponse (α : Type) where
  items : List α
  total_count : Option Int
  page : Int
  per_page : Int
  has_more : Bool
  deriving Repr

/-- Python `a or b` on two `d.get(k)` results (truthiness on the option). -/
def pyOrOpt (a b : Option String) : Option String :=
  match a with
  | none => b
  | some s => if s = "" then b else a

/-- ASCII lower-casing of a header name, as httpx applies to header keys. -/
def pyLower (s : String) : String :=
  String.mk (s.toList.map Char.toLower)

/-- The `dict(response.headers)` argument built at every `from_response` call
site (`inventory.py` lines 89 and 306, and the `deployments.py` list
endpoints): httpx stores and yields header names lower-cased, so the dict
`from_response` receives holds each header under the lower-cased spelling of
whatever name the server sent. -/
def httpxHeaders (hs : List (String × String)) : List (String × String) :=
  hs.map (fun p => (pyLower p.1, p.2))

/-- Embedding of `PaginatedResponse.from_response` (`models/common.py` lines 50-76).
`headers` is the plain `dict[str, str]` the call sites build with
`dict(response.headers)` (see `httpxHeaders`); lookup on that dict is
exact-case.  The `try: int(...) except ValueError: pass` leaves `total_count`
as `None` on an unparsable value. -/
def from_response (items : List α) (headers : List (String × String))
    (page : Int) (per_page : Int) : PaginatedResponse α :=
  let header_value := pyOrOpt (dictGet headers "X-Total-Count")
      (dictGet headers "x-total-count")
  let total_count : Option Int :=
    match header_value with
    | none => none
    | some s => if s = "" then none else pythonInt s
  let has_more : Bool := per_page ≤ (items.length : Int)
  ⟨items, total_count, page, per_page, has_more⟩

/-- Python `s.split(sep)` for a one-character separator, over the character
list: `"".split("/") == [""]`, and separators at the ends produce empty
fields. -/
def pySplitSep (sep : Char) : List Char → List (List Char)
  | [] => [[]]
  | c :: cs =>
    let rest := pySplitSep sep cs
    if c = sep then [] :: rest
    else
      match rest with
      | [] => [[c]]
      | g :: gs => (c :: g) :: gs

/-- Embedding of `location = response.headers.get("Location", ""); return
location.split("/")[-1]` — the id extraction shared by
`DeploymentsClient.create_deployment` (lines 165-172),
`DeploymentsClient._upload_artifact_file` (lines 477-485) and
`InventoryClient.create_filter` (lines 507-517).  `location` is the header
value, `none` when the header is absent. -/
def extract_location_id (location : Option String) : String :=
  String.mk ((pySplitSep '/' (location.getD "").toList).getLastD [])

/-- The final path segment of a string, stated independently of `split`: the
characters after the last separator. -/
def finalSegment (s : String) : String :=
  String.mk ((s.toList.reverse.takeWhile (fun c => c ≠ '/')).reverse)

/-- The stop test of the pagination loops (`inventory.py` line 122,
`deployments.py` line 132): `not result.has_more or len(result.items) <
per_page`.  `fetch p` is the page-`p` fetch result `(items, has_more)`. -/
def stopsAt (fetch : Nat → List α × Bool) (per_page : Nat) (p : Nat) : Prop :=
  (fetch p).2 = false ∨ (fetch p).1.length < per_page

instance (fetch : Nat → List α × Bool) (per_page p : Nat) :
    Decidable (stopsAt fetch per_page p) := by
  unfold stopsAt; infer_instance

/-- Embedding of `InventoryClient.iter_devices` (`inventory.py` lines 96-125): the
`while True` loop, with an explicit fuel bound on the number of page fetches.
Each iteration yields the fetched page's items in order, then breaks when the
stop test holds, else moves to the next page. -/
def iter_devices (fetch : Nat → List α × Bool) (per_page : Nat) :
    Nat → Nat → List α
  | 0, _ => []
  | fuel + 1, page =>
    let r := fetch page
    if stopsAt fetch per_page page then r.1
    else r.1 ++ iter_devices fetch per_page fuel (page + 1)

/-- The pages that `iter_devices` fetches, in order, under the same fuel. -/
def iter_pages (fetch : Nat → List α × Bool) (per_page : Nat) :
    Nat → Nat → List Nat
  | 0, _ => []
  | fuel + 1, page =>
    if stopsAt fetch per_page page then [page]
    else page :: iter_pages fetch per_page fuel (page + 1)

/-- A concrete paginated fetcher: pages 1 and 2 hold 20 items, page 3 holds 5
(with `has_more` false, as `from_response` computes for a short page), and
every later page would hold 20 more items, so fetching page 4 would be
observable. -/
def fetch3 : Nat → List Nat × Bool := fun p =>
  if p = 1 then (List.range 20, true)
  else if p = 2 then (List.range 20, true)
  else if p = 3 then (List.range 5, false)
  else (List.range 20, true)

/-- A fetcher whose pages always claim `has_more = true` but hold only 5
items: exercises the count check with the server metadata saying "more". -/
def fetchDom : Nat → List Nat × Bool := fun _ => (List.range 5, true)

/- ------------------------------------------------------------------ -/
/- Theorems                                                           -/
/- ------------------------------------------------------------------ -/

/-- C1 (counterexample): with jitter enabled (the default), a valid
`random.random()` draw of `9/10` at attempt 10 under the default
configuration gives `min(1 * 2^10, 60) * (0.5 + 0.9) = 84 > 60`, so the
computed delay exceeds `max_delay`. -/
theorem c1_jitter_exceeds_cap :
    (0 : ℚ) ≤ 9/10 ∧ (9/10 : ℚ) < 1 ∧
    ¬ calculate_delay ⟨3, 1, 60, 2, true⟩ 10 none (9/10)
        ≤ (⟨3, 1, 60, 2, true⟩ : RetryConfig).max_delay := by
  refine ⟨by norm_num, by norm_num, ?_⟩
  norm_num [calculate_delay, min_def]

/-- C1 (amended): with no server-suggested delay, the computed delay is at
most `max_delay` whenever jitter is disabled; with jitter enabled it is only
bounded by `3/2 * max_delay` (for a valid draw `0 ≤ r < 1` and non-negative
configuration values). -/
theorem c1_delay_cap (cfg : RetryConfig) (attempt : Nat) (r : ℚ) :
    (cfg.jitter = false → calculate_delay cfg attempt none r ≤ cfg.max_delay) ∧
    (0 ≤ r → r < 1 → 0 ≤ cfg.base_delay → 0 ≤ cfg.exponential_base →
      0 ≤ cfg.max_delay →
      calculate_delay cfg attempt none r ≤ 3/2 * cfg.max_delay) := by
  constructor
  · intro hj
    simp only [calculate_delay, hj, if_false, Bool.false_eq_true]
    exact min_le_right _ _
  · intro hr0 hr1 hb hg hm
    simp only [calculate_delay]
    have hpow : 0 ≤ cfg.base_delay * cfg.exponential_base ^ attempt :=
      mul_nonneg hb (pow_nonneg hg _)
    have hmin0 : 0 ≤ min (cfg.base_delay * cfg.exponential_base ^ attempt) cfg.max_delay :=
      le_min hpow hm
    have hminle : min (cfg.base_delay * cfg.exponential_base ^ attempt) cfg.max_delay
        ≤ cfg.max_delay := min_le_right _ _
    cases hj : cfg.jitter
    · simp only [if_false, Bool.false_eq_true]
      linarith
    · simp only [if_true]
      have : min (cfg.base_delay * cfg.exponential_base ^ attempt) cfg.max_delay * (1/2 + r)
          ≤ cfg.max_delay * (3/2) := by
        apply mul_le_mul hminle (by linarith) (by linarith) hm
      linarith

/-- C1 (witness for the amended theorem). -/
theorem c1_delay_cap_witness :
    calculate_delay ⟨3, 1, 60, 2, false⟩ 3 none 0
      ≤ (⟨3, 1, 60, 2, false⟩ : RetryConfig).max_delay ∧
    calculate_delay ⟨3, 1, 60, 2, true⟩ 3 none (1/4)
      ≤ 3/2 * (⟨3, 1, 60, 2, true⟩ : RetryConfig).max_delay :=
  ⟨(c1_delay_cap ⟨3, 1, 60, 2, false⟩ 3 0).1 rfl,
   (c1_delay_cap ⟨3, 1, 60, 2, true⟩ 3 (1/4)).2 (by norm_num) (by norm_num)
     (by norm_num) (by norm_num) (by norm_num)⟩

/-- C4 (counterexample): at status 429 with a `Retry-After` header value
that does not parse as an integer, `int(retry_after)` raises `ValueError`, so
classification does not succeed with a `RateLimitError` carrying no delay as
the claim states. -/
theorem c4_unparsable_raises :
    handle_error_response 429 (some "soon") = PyResult.valueError ∧
    handle_error_response 429 (some "soon") ≠ PyResult.ok (MErr.rateLimit none) := by
  constructor
  · rfl
  · decide

/-- C4 (amended): at status 429 the classifier produces a `RateLimitError`
whose suggested delay is the `Retry-After` header parsed as integer seconds;
the delay is none when the header is absent or empty, but a non-empty
unparsable value makes the `int(...)` conversion raise `ValueError` instead
of producing the `RateLimitError`. -/
theorem c4_rate_limit_retry_after (s : String) (k : Int) :
    handle_error_response 429 none = PyResult.ok (MErr.rateLimit none) ∧
    handle_error_response 429 (some "") = PyResult.ok (MErr.rateLimit none) ∧
    (s ≠ "" → pythonInt s = some k →
      handle_error_response 429 (some s) = PyResult.ok (MErr.rateLimit (some k))) ∧
    (s ≠ "" → pythonInt s = none →
      handle_error_response 429 (some s) = PyResult.valueError) := by
  refine ⟨rfl, rfl, ?_, ?_⟩
  · intro hne hk
    simp [handle_error_response, hne, hk]
  · intro hne hk
    simp [handle_error_response, hne, hk]

/-- C4 (witness for the amended theorem). -/
theorem c4_rate_limit_retry_after_witness :
    handle_error_response 429 (some "120") = PyResult.ok (MErr.rateLimit (some 120)) ∧
    handle_error_response 429 (some "abc") = PyResult.valueError :=
  ⟨(c4_rate_limit_retry_after "120" 120).2.2.1 (by decide) (by decide),
   (c4_rate_limit_retry_after "abc" 0).2.2.2 (by decide) (by decide)⟩

/-- If every attempt in the remaining window fails with a retryable error,
the loop runs the window to its end, makes `fuel + 1` calls, and re-raises
the error of the final attempt unchanged. -/
lemma retryAux_all_retryable {α : Type} (m : Nat) (f : Nat → Except MErr α)
    (e : Nat → MErr) :
    ∀ fuel, fuel ≤ m →
      (∀ j, m - fuel ≤ j → j ≤ m → f j = .error (e j) ∧ isRetryable (e j) = true) →
      retryAux m f fuel = (.error (e m), fuel + 1) := by
  intro fuel
  induction fuel with
  | zero =>
    intro _ h
    have hm := h m (by omega) (le_refl m)
    simp [retryAux, hm.1]
  | succ fuel ih =>
    intro hle h
    have hat := h (m - (fuel + 1)) (le_refl _) (by omega)
    have hrec := ih (by omega) (fun j hj1 hj2 => h j (by omega) hj2)
    simp [retryAux, hat.1, hat.2, hrec]

/-- The loop never calls the wrapped function more than `fuel + 1` times. -/
lemma retryAux_tries_le {α : Type} (m : Nat) (f : Nat → Except MErr α) :
    ∀ fuel, (retryAux m f fuel).2 ≤ fuel + 1 := by
  intro fuel
  induction fuel with
  | zero =>
    cases hm : f m <;> simp [retryAux, hm]
  | succ fuel ih =>
    cases hm : f (m - (fuel + 1)) with
    | ok v => simp [retryAux, hm]
    | error e =>
      cases hr : isRetryable e
      · simp [retryAux, hm, hr]
      · simp [retryAux, hm, hr]
        omega

/-- If every attempt before the end of the window fails with a retryable
`503` server error and the final attempt succeeds, the loop returns that
success. -/
lemma retryAux_eventually_ok {α : Type} (m : Nat) (f : Nat → Except MErr α) (v : α) :
    ∀ fuel, fuel ≤ m →
      (∀ j, m - fuel ≤ j → j < m → f j = .error (.server 503)) →
      f m = .ok v →
      (retryAux m f fuel).1 = .ok v := by
  intro fuel
  induction fuel with
  | zero =>
    intro _ _ hm
    simp [retryAux, hm]
  | succ fuel ih =>
    intro hle h hm
    have hat : f (m - (fuel + 1)) = .error (.server 503) :=
      h (m - (fuel + 1)) (le_refl _) (by omega)
    have hrec := ih (by omega) (fun j hj1 hj2 => h j (by omega) hj2) hm
    simp [retryAux, hat, isRetryable, hrec]

/-- A non-retryable error is not caught by the `except` clause: it escapes on
the very first iteration in which it occurs. -/
lemma retryAux_nonretryable_first {α : Type} (m : Nat) (f : Nat → Except MErr α)
    (e : MErr) (fuel : Nat) (hr : isRetryable e = false)
    (h0 : f (m - fuel) = .error e) :
    retryAux m f fuel = (.error e, 1) := by
  cases fuel with
  | zero => simp [retryAux, show f m = .error e from by simpa using h0]
  | succ fuel => simp [retryAux, h0, hr]

/-- C2: the retry wrapper makes at most `max_retries + 1` calls of the
wrapped operation; when every try raises a retryable error the error of the
last try is re-raised unchanged after exactly `max_retries + 1` calls; a run
whose first `max_retries` tries fail with a 503 `ServerError` and whose next
try succeeds returns that success; and `max_retries + 1` consecutive 503
failures surface the `ServerError`. -/
theorem c2_retry_budget {α : Type} (cfg : RetryConfig)
    (f : Nat → Except MErr α) (e : Nat → MErr) (v : α) :
    (retry_with_backoff cfg f).2 ≤ cfg.max_retries + 1 ∧
    ((∀ n, n ≤ cfg.max_retries → f n = .error (e n) ∧ isRetryable (e n) = true) →
      retry_with_backoff cfg f = (.error (e cfg.max_retries), cfg.max_retries + 1)) ∧
    ((∀ n, n < cfg.max_retries → f n = .error (.server 503)) →
      f cfg.max_retries = .ok v →
      (retry_with_backoff cfg f).1 = .ok v) ∧
    ((∀ n, n ≤ cfg.max_retries → f n = .error (.server 503)) →
      (retry_with_backoff cfg f).1 = .error (.server 503)) := by
  refine ⟨retryAux_tries_le _ _ _, ?_, ?_, ?_⟩
  · intro h
    exact retryAux_all_retryable cfg.max_retries f e cfg.max_retries (le_refl _)
      (fun j hj1 hj2 => h j hj2)
  · intro h hm
    exact retryAux_eventually_ok cfg.max_retries f v cfg.max_retries (le_refl _)
      (fun j hj1 hj2 => h j hj2) hm
  · intro h
    have := retryAux_all_retryable cfg.max_retries f (fun _ => .server 503)
      cfg.max_retries (le_refl _) (fun j hj1 hj2 => ⟨h j hj2, rfl⟩)
    simp [retry_with_backoff, this]

/-- C2 (witness): with `max_retries = 2`, two 503 failures then a success
return the success; three consecutive 503 failures surface the error after
exactly three tries. -/
theorem c2_retry_budget_witness :
    (retry_with_backoff ⟨2, 1, 60, 2, false⟩
        (fun n => if n < 2 then .error (.server 503) else .ok (42 : Nat))).1
      = .ok 42 ∧
    retry_with_backoff ⟨2, 1, 60, 2, false⟩
        (fun _ => (.error (.server 503) : Except MErr Nat))
      = (.error (.server 503), 3) :=
  ⟨(c2_retry_budget ⟨2, 1, 60, 2, false⟩
      (fun n => if n < 2 then .error (.server 503) else .ok (42 : Nat))
      (fun _ => .server 503) 42).2.2.1
      (fun n hn => by simp [hn]) (by simp),
   (c2_retry_budget ⟨2, 1, 60, 2, false⟩
      (fun _ => (.error (.server 503) : Except MErr Nat))
      (fun _ => .server 503) 0).2.1
      (fun n _ => ⟨rfl, rfl⟩)⟩

/-- C3: under the default configuration an error is retryable exactly when it
is a connection failure, a timeout, a `ServerError` or a `RateLimitError`;
every error the classifier produces for statuses 400, 401, 403, 404 and 409
is non-retryable; and a non-retryable error raised on the first try
propagates immediately after a single call, regardless of the remaining
budget. -/
theorem c3_retryable_classes {α : Type} (e : MErr) (s : Nat) (ra : Option String)
    (cfg : RetryConfig) (f : Nat → Except MErr α) (err : MErr) :
    (isRetryable e = true ↔
      e = .connection ∨ e = .timeout ∨
      (∃ st, e = .server st) ∨ (∃ d, e = .rateLimit d)) ∧
    (s = 400 ∨ s = 401 ∨ s = 403 ∨ s = 404 ∨ s = 409 →
      ∀ e2, handle_error_response s ra = .ok e2 → isRetryable e2 = false) ∧
    (isRetryable err = false → f 0 = .error err →
      retry_with_backoff cfg f = (.error err, 1)) := by
  refine ⟨?_, ?_, ?_⟩
  · cases e <;> simp [isRetryable]
  · rintro (rfl | rfl | rfl | rfl | rfl) e2 he2 <;>
      (simp [handle_error_response] at he2; simp [← he2, isRetryable])
  · intro hr h0
    exact retryAux_nonretryable_first cfg.max_retries f err cfg.max_retries hr
      (by simpa using h0)

/-- C3 (witness): a `404 NotFoundError` is classified non-retryable and, when
raised on the first try, escapes after one call even with budget left. -/
theorem c3_retryable_classes_witness :
    isRetryable .notFound = false ∧
    retry_with_backoff ⟨3, 1, 60, 2, true⟩
        (fun _ => (.error .notFound : Except MErr Nat))
      = (.error .notFound, 1) :=
  ⟨(c3_retryable_classes (α := Nat) .notFound 404 none ⟨3, 1, 60, 2, true⟩
      (fun _ => .error .notFound) .notFound).2.1
      (by simp) .notFound (by decide),
   (c3_retryable_classes .notFound 404 none ⟨3, 1, 60, 2, true⟩
      (fun _ => (.error .notFound : Except MErr Nat)) .notFound).2.2 rfl rfl⟩

/-- C5: a present server-suggested delay `k` makes `calculate_delay` return
exactly `k`, for every attempt number, configuration and jitter draw — the
exponential formula and jitter are bypassed — and the retry wrapper takes
that hint from a rate-limit error's `retry_after` field. -/
theorem c5_retry_after_overrides (cfg : RetryConfig) (attempt : Nat)
    (k : Int) (r : ℚ) :
    calculate_delay cfg attempt (some k) r = (k : ℚ) ∧
    delay_for cfg attempt (.rateLimit (some k)) r = (k : ℚ) ∧
    retry_after_of (.rateLimit (some k)) = some k :=
  ⟨rfl, rfl, rfl⟩

/-- C7 (counterexample): the preference chain uses Python truthiness, not key
presence: in a body whose `error` key is present but holds the empty string,
the extractor falls through to `message` instead of returning the `error`
value. -/
theorem c7_falsy_error_skipped :
    extract_error_message (.dict [("error", ""), ("message", "actual")]) = "actual" ∧
    extract_error_message (.dict [("error", ""), ("message", "actual")]) ≠ "" := by
  refine ⟨rfl, ?_⟩
  decide

/-- C7 (amended): the extracted message is the body's `error` field if
present with a truthy (non-empty) value, else its `message` field if truthy,
else its `Error` field if truthy, else the stringified body; a string body is
returned as-is when non-empty, and an empty or `None` body yields the fixed
fallback `"Unknown error"`.  The two concrete examples of the claim hold. -/
theorem c7_message_preference (d : List (String × String)) (s t u w : String) :
    (dictGet d "error" = some s → s ≠ "" → extract_error_message (.dict d) = s) ∧
    ((dictGet d "error" = none ∨ dictGet d "error" = some "") →
      dictGet d "message" = some t → t ≠ "" →
      extract_error_message (.dict d) = t) ∧
    ((dictGet d "error" = none ∨ dictGet d "error" = some "") →
      (dictGet d "message" = none ∨ dictGet d "message" = some "") →
      dictGet d "Error" = some u → u ≠ "" →
      extract_error_message (.dict d) = u) ∧
    ((dictGet d "error" = none ∨ dictGet d "error" = some "") →
      (dictGet d "message" = none ∨ dictGet d "message" = some "") →
      (dictGet d "Error" = none ∨ dictGet d "Error" = some "") →
      extract_error_message (.dict d) = strOfDict d) ∧
    (w ≠ "" → extract_error_message (.str w) = w) ∧
    extract_error_message (.str "") = "Unknown error" ∧
    extract_error_message .pyNone = "Unknown error" ∧
    extract_error_message (.dict [("error", "bad input")]) = "bad input" := by
  refine ⟨?_, ?_, ?_, ?_, ?_, rfl, rfl, rfl⟩
  · intro he hs
    simp [extract_error_message, pyOrStr, he, hs]
  · rintro (he | he) hm ht <;>
      simp [extract_error_message, pyOrStr, he, hm, ht]
  · rintro (he | he) (hm | hm) hu hut <;>
      simp [extract_error_message, pyOrStr, he, hm, hu, hut]
  · rintro (he | he) (hm | hm) (hu | hu) <;>
      simp [extract_error_message, pyOrStr, he, hm, hu]
  · intro hw
    simp [extract_error_message, hw]

/-- C7 (witness for the amended theorem). -/
theorem c7_message_preference_witness :
    extract_error_message (.dict [("error", "bad input"), ("message", "x")])
      = "bad input" ∧
    extract_error_message (.dict [("message", "fallback")]) = "fallback" ∧
    extract_error_message (.dict [("foo", "x")])
      = strOfDict [("foo", "x")] :=
  ⟨(c7_message_preference [("error", "bad input"), ("message", "x")]
      "bad input" "" "" "").1 rfl (by decide),
   (c7_message_preference [("message", "fallback")] "" "fallback" "" "").2.1
      (Or.inl rfl) rfl (by decide),
   (c7_message_preference [("foo", "x")] "" "" "" "").2.2.2.1
      (Or.inl rfl) (Or.inl rfl) (Or.inl rfl)⟩

/-- C8: through its call sites, which pass `dict(response.headers)` with
httpx delivering header names lower-cased, `from_response` derives
`total_count` from an `X-Total-Count` response header sent under any casing
of the name (the lower-cased name hits the `"x-total-count"` lookup at
`models/common.py` line 61); an absent, empty or unparsable value leaves
`total_count` at `none`, and `has_more` is computed from the
item-count-versus-page-size comparison alone, not taken from server
metadata. -/
theorem c8_total_count_case_insensitive {α : Type} (items : List α)
    (raw : List (String × String)) (name v : String) (page per_page : Int) :
    (pyLower name = "x-total-count" →
      (from_response items (httpxHeaders [(name, v)]) page per_page).total_count
        = if v = "" then none else pythonInt v) ∧
    (pyLower name = "x-total-count" → pythonInt v = none →
      (from_response items (httpxHeaders [(name, v)]) page per_page).total_count
        = none) ∧
    (from_response items (httpxHeaders []) page per_page).total_count = none ∧
    ((from_response items raw page per_page).has_more = true ↔
      per_page ≤ (items.length : Int)) ∧
    (from_response items raw page per_page).items = items := by
  have hkey : pyLower name = "x-total-count" →
      httpxHeaders [(name, v)] = [("x-total-count", v)] := by
    intro h
    simp [httpxHeaders, h]
  have h2 : dictGet [("x-total-count", v)] "X-Total-Count" = none := rfl
  have h2b : dictGet [("x-total-count", v)] "x-total-count" = some v := rfl
  refine ⟨?_, ?_, rfl, ?_, rfl⟩
  · intro h
    rw [hkey h]
    by_cases hv : v = ""
    · subst hv; simp [from_response, pyOrOpt, h2, h2b]
    · simp [from_response, pyOrOpt, h2, h2b, hv]
  · intro h hun
    rw [hkey h]
    by_cases hv : v = ""
    · subst hv; simp [from_response, pyOrOpt, h2, h2b]
    · simp [from_response, pyOrOpt, h2, h2b, hv, hun]
  · simp [from_response]

/-- C8 (witness): a server sending `X-TOTAL-COUNT: 5` reaches
`from_response` lower-cased and is recognized as total count 5; a mixed
casing with an unparsable value leaves `total_count` at `none`. -/
theorem c8_total_count_case_insensitive_witness :
    (from_response ([] : List Nat)
        (httpxHeaders [("X-TOTAL-COUNT", "5")]) 1 20).total_count = some 5 ∧
    (from_response ([] : List Nat)
        (httpxHeaders [("x-Total-Count", "soon")]) 1 20).total_count = none := by
  constructor
  · rw [(c8_total_count_case_insensitive ([] : List Nat) [] "X-TOTAL-COUNT"
      "5" 1 20).1 (by decide)]
    decide
  · exact (c8_total_count_case_insensitive ([] : List Nat) [] "x-Total-Count"
      "soon" 1 20).2.1 (by decide) (by decide)

/-- The split `pySplitSep` always produces at least one field. -/
lemma pySplitSep_ne_nil (sep : Char) (cs : List Char) :
    pySplitSep sep cs ≠ [] := by
  induction cs with
  | nil => simp [pySplitSep]
  | cons c cs ih =>
    by_cases hc : c = sep
    · simp [pySplitSep, hc]
    · simp only [pySplitSep, if_neg hc]
      cases h : pySplitSep sep cs <;> simp

/-- The value `getLastD` of a non-empty list does not depend on the default. -/
lemma getLastD_of_ne_nil {α : Type} (l : List α) (h : l ≠ []) (d₁ d₂ : α) :
    l.getLastD d₁ = l.getLastD d₂ := by
  cases hl : l.getLast? with
  | none => exact absurd (List.getLast?_eq_none_iff.mp hl) h
  | some x =>
    rw [List.getLastD_eq_getLast?, List.getLastD_eq_getLast?, hl]
    rfl

/-- Splitting `takeWhile` across an appended singleton. -/
lemma takeWhile_append_singleton {α : Type} (p : α → Bool) (c : α) :
    ∀ (xs : List α), List.takeWhile p (xs ++ [c])
      = if xs.all p then xs ++ List.takeWhile p [c] else List.takeWhile p xs := by
  intro xs
  induction xs with
  | nil => simp
  | cons x xs ih =>
    rw [List.cons_append, List.takeWhile_cons, List.takeWhile_cons, List.all_cons]
    cases hx : p x with
    | false => simp [hx]
    | true =>
      rw [if_pos rfl, ih, Bool.true_and]
      by_cases ha : xs.all p = true
      · rw [if_pos ha, if_pos ha, List.cons_append, List.takeWhile_cons]
      · rw [if_neg ha, if_neg ha, List.takeWhile_cons, if_pos hx]

/-- A list with no separator splits into the single field it is. -/
lemma pySplitSep_of_no_sep (sep : Char) :
    ∀ (cs : List Char), cs.all (fun c => c ≠ sep) → pySplitSep sep cs = [cs] := by
  intro cs
  induction cs with
  | nil => intro _; rfl
  | cons c cs ih =>
    intro h
    simp only [List.all_cons, Bool.and_eq_true, decide_eq_true_eq] at h
    simp [pySplitSep, h.1, ih (by simpa using h.2)]

/-- A list containing the separator splits into at least two fields. -/
lemma pySplitSep_length_of_mem (sep : Char) :
    ∀ (cs : List Char), sep ∈ cs → 2 ≤ (pySplitSep sep cs).length := by
  intro cs
  induction cs with
  | nil => intro h; simp at h
  | cons c cs ih =>
    intro h
    by_cases hc : c = sep
    · have := pySplitSep_ne_nil sep cs
      simp only [pySplitSep, if_pos hc, List.length_cons]
      cases hl : pySplitSep sep cs with
      | nil => exact absurd hl this
      | cons g gs => simp
    · have hmem : sep ∈ cs := by
        cases h with
        | head => exact absurd rfl hc
        | tail _ h => exact h
      have h2 := ih hmem
      simp only [pySplitSep, if_neg hc]
      cases hl : pySplitSep sep cs with
      | nil => exact absurd hl (pySplitSep_ne_nil sep cs)
      | cons g gs =>
        rw [hl] at h2
        simpa using h2

/-- The last field of the split is exactly the run of non-separator
characters at the end of the list. -/
lemma pySplitSep_getLastD (sep : Char) :
    ∀ (cs : List Char), (pySplitSep sep cs).getLastD []
      = (cs.reverse.takeWhile (fun c => c ≠ sep)).reverse := by
  intro cs
  induction cs with
  | nil => simp [pySplitSep]
  | cons c cs ih =>
    rw [List.reverse_cons, takeWhile_append_singleton]
    by_cases hc : c = sep
    · have hone : List.takeWhile (fun x => decide (x ≠ sep)) [c] = [] := by
        simp [hc]
      have hsplit : pySplitSep sep (c :: cs) = [] :: pySplitSep sep cs := by
        simp [pySplitSep, hc]
      rw [hone, hsplit, List.getLastD_cons, ih]
      by_cases ha : cs.reverse.all (fun x => decide (x ≠ sep)) = true
      · rw [if_pos ha, List.append_nil,
          List.takeWhile_eq_self_iff.mpr (List.all_eq_true.mp ha)]
      · rw [if_neg ha]
    · have hone : List.takeWhile (fun x => decide (x ≠ sep)) [c] = [c] := by
        simp [hc]
      rw [hone]
      by_cases ha : cs.reverse.all (fun x => decide (x ≠ sep)) = true
      · have hsplit : pySplitSep sep cs = [cs] :=
          pySplitSep_of_no_sep sep cs (by rwa [List.all_reverse] at ha)
        have hsplit2 : pySplitSep sep (c :: cs) = [c :: cs] := by
          simp [pySplitSep, hc, hsplit]
        rw [hsplit2, if_pos ha]
        simp
      · have hmem : sep ∈ cs := by
        { rw [List.all_reverse] at ha
          simp only [List.all_eq_true, not_forall] at ha
          obtain ⟨x, hx, hxe⟩ := ha
          simp only [decide_eq_true_eq, Decidable.not_not] at hxe
          exact hxe ▸ hx }
        obtain ⟨g, gs, hl⟩ : ∃ g gs, pySplitSep sep cs = g :: gs := by
        { cases h : pySplitSep sep cs with
          | nil => exact absurd h (pySplitSep_ne_nil sep cs)
          | cons g gs => exact ⟨g, gs, rfl⟩ }
        have hgs : gs ≠ [] := by
        { have hlen := pySplitSep_length_of_mem sep cs hmem
          rw [hl] at hlen
          intro hnil
          rw [hnil] at hlen
          simp at hlen }
        have hsplit2 : pySplitSep sep (c :: cs) = (c :: g) :: gs := by
          simp [pySplitSep, hc, hl]
        rw [hsplit2, if_neg ha, List.getLastD_cons,
          getLastD_of_ne_nil gs hgs (c :: g) g]
        rw [hl, List.getLastD_cons] at ih
        exact ih

/-- C9: the id returned by `create_deployment`, `create_filter` and
`upload_artifact` is the final path segment of the `Location` header — the
characters after the last `/` — and in particular `/deployments/abc-123`
yields `abc-123`. -/
theorem c9_location_final_segment (loc : String) :
    extract_location_id (some loc) = finalSegment loc ∧
    extract_location_id (some "/deployments/abc-123") = "abc-123" := by
  constructor
  · show String.mk ((pySplitSep '/' loc.toList).getLastD []) = _
    rw [pySplitSep_getLastD]
    rfl
  · rfl

/-- If the stop test first holds on the `k`-th page after `start`, the
pagination loop (with enough fuel) yields the items of pages
`start .. start + k` in order and fetches exactly those pages. -/
lemma iter_devices_run {α : Type} (fetch : Nat → List α × Bool) (per : Nat) :
    ∀ (k fuel start : Nat), k < fuel →
      (∀ j, j < k → ¬ stopsAt fetch per (start + j)) →
      stopsAt fetch per (start + k) →
      iter_devices fetch per fuel start
        = ((List.range (k + 1)).map (fun j => (fetch (start + j)).1)).flatten ∧
      iter_pages fetch per fuel start
        = (List.range (k + 1)).map (fun j => start + j) := by
  intro k
  induction k with
  | zero =>
    intro fuel start hfu _ hstop
    cases fuel with
    | zero => omega
    | succ fuel =>
      have hstop0 : stopsAt fetch per start := by simpa using hstop
      constructor
      · simp [iter_devices, if_pos hstop0, List.range_succ]
      · simp [iter_pages, if_pos hstop0, List.range_succ]
  | succ k ih =>
    intro fuel start hfu hgo hstop
    cases fuel with
    | zero => omega
    | succ fuel =>
      have hgo0 : ¬ stopsAt fetch per start := by
        have := hgo 0 (by omega)
        simpa using this
      have hrec := ih fuel (start + 1) (by omega)
        (fun j hj => by
          have := hgo (j + 1) (by omega)
          have he : start + (j + 1) = start + 1 + j := by omega
          rwa [he] at this)
        (by
          have he : start + (k + 1) = start + 1 + k := by omega
          rwa [he] at hstop)
      have hfun : ∀ (g : Nat → List α),
          List.map ((fun j => g (start + j)) ∘ Nat.succ) (List.range (k + 1))
            = List.map (fun j => g (start + 1 + j)) (List.range (k + 1)) := by
        intro g
        apply List.map_congr_left
        intro a _
        simp only [Function.comp_apply]
        congr 1
        omega
      have hshift : ∀ (g : Nat → List α),
          ((List.range (k + 2)).map (fun j => g (start + j))).flatten
            = g start ++ ((List.range (k + 1)).map (fun j => g (start + 1 + j))).flatten := by
        intro g
        rw [List.range_succ_eq_map, List.map_cons, List.flatten_cons, List.map_map, hfun g]
        rfl
      constructor
      · rw [show iter_devices fetch per (fuel + 1) start
            = (fetch start).1 ++ iter_devices fetch per fuel (start + 1) from by
            simp [iter_devices, if_neg hgo0]]
        rw [hrec.1, hshift (fun p => (fetch p).1)]
      · rw [show iter_pages fetch per (fuel + 1) start
            = start :: iter_pages fetch per fuel (start + 1) from by
            simp [iter_pages, if_neg hgo0]]
        rw [hrec.2]
        conv_rhs => rw [List.range_succ_eq_map, List.map_cons, List.map_map]
        have hfun2 : List.map (fun j => start + 1 + j) (List.range (k + 1))
            = List.map ((fun j => start + j) ∘ Nat.succ) (List.range (k + 1)) := by
          apply List.map_congr_left
          intro a _
          simp only [Function.comp_apply]
          omega
        rw [hfun2]
        rfl

/-- C6: for every one-page fetch function the pagination loop yields each
fetched page's items in order starting from page 1, stopping exactly at the
first page where `has_more` is false or the item count falls below the page
size; with page size 20 and pages of 20, 20 and 5 items (`fetch3`) it yields
exactly 45 items, fetching pages 1, 2, 3 and never page 4; and a page
reporting `has_more = true` with fewer items than the page size (`fetchDom`)
still stops the iteration (the count check dominates). -/
theorem c6_pagination {α : Type} (fetch : Nat → List α × Bool)
    (per k fuel : Nat) :
    (k < fuel →
      (∀ j, j < k → ¬ stopsAt fetch per (1 + j)) →
      stopsAt fetch per (1 + k) →
      iter_devices fetch per fuel 1
        = ((List.range (k + 1)).map (fun j => (fetch (1 + j)).1)).flatten ∧
      iter_pages fetch per fuel 1
        = (List.range (k + 1)).map (fun j => 1 + j)) ∧
    (iter_devices fetch3 20 10 1).length = 45 ∧
    iter_pages fetch3 20 10 1 = [1, 2, 3] ∧
    4 ∉ iter_pages fetch3 20 10 1 ∧
    iter_devices fetchDom 20 10 1 = List.range 5 ∧
    iter_pages fetchDom 20 10 1 = [1] := by
  refine ⟨fun hfu hgo hstop => iter_devices_run fetch per k fuel 1 hfu hgo hstop,
    ?_, ?_, ?_, ?_, ?_⟩ <;> decide

/-- C6 (witness for the general part). -/
theorem c6_pagination_witness :
    iter_devices fetch3 20 10 1
      = ((List.range 3).map (fun j => (fetch3 (1 + j)).1)).flatten ∧
    iter_pages fetch3 20 10 1 = (List.range 3).map (fun j => 1 + j) :=
  (c6_pagination fetch3 20 2 10).1 (by omega)
    (fun j hj => by interval_cases j <;> decide)
    (by decide)

/-- C10: a successful creation response with no `Location` header yields the
empty string as the created id — `headers.get("Location", "")` falls back to
`""` and `"".split("/")[-1] == ""` — rather than raising. -/
theorem c10_missing_location_empty_id :
    extract_location_id none = "" :=
  rfl

end MenderSDK
